import Mathlib

/-!
# Verification of the dual-path request dispatcher in `src/server/server.js`

A shallow embedding of the request-handling core of the OCE React gallery
server: the authenticated streaming content proxy (`handleContentRequest`,
`writeProxyContent`, the `/content/` middleware) and the route-match /
data-prefetch / render pipeline (`server.get('*')`).

JavaScript strings are modelled as `List Char`; the response object is
modelled either as a small status/body record (render path, which uses
`res.status` / `res.send`) or as a trace of write operations (proxy path,
which uses `res.writeHead` and stream piping).  Asynchronous steps
(`await`, `.then`) are modelled by value passing: the awaited value is a
parameter of the definition that consumes it.
-/

namespace OceServer

/-- A JavaScript string, modelled as its list of characters. -/
abbrev Str := List Char

/-- `s.charAt(s.length - 1) === '/'` — the last character is a slash
(`charAt` of an empty string yields `''`, which is not `'/'`). -/
def endsWithSlash (s : Str) : Bool := s.getLast? == some '/'

/-- `s.charAt(0) === '/'` — the first character is a slash. -/
def startsWithSlash (s : Str) : Bool := s.head? == some '/'

/-- URL construction of `handleContentRequest` (server.js lines 44-50):

    let content = SERVER_URL.charAt(SERVER_URL.length - 1) === '/'
      ? 'content' : '/content';
    if (req.url.charAt(0) !== '/') content = content + '/';
    const oceUrl = SERVER_URL + content + req.url;
-/
def oceUrl (serverUrl reqUrl : Str) : Str :=
  let content := if endsWithSlash serverUrl then "content".toList else "/content".toList
  let content := if !startsWithSlash reqUrl then content ++ ['/'] else content
  serverUrl ++ content ++ reqUrl

/-- The base URL with a single trailing slash removed, when it has one
(used to state the slash-normalization property; not part of the code). -/
def stripTrailingSlash (s : Str) : Str :=
  if endsWithSlash s then s.dropLast else s

/-- The inbound path with a single leading slash removed, when it has one
(used to state the slash-normalization property; not part of the code). -/
def stripLeadingSlash (s : Str) : Str :=
  if startsWithSlash s then s.tail else s

/-- The outbound request the proxy opens: target URL, the optional
`Authorization` header, and which transport module (`https` vs `http`)
carries it. -/
structure OutboundRequest where
  url : Str
  authHeader : Option Str
  secure : Bool
  deriving Repr, DecidableEq

/-- What `handleContentRequest` does with a request, observably: ignore it
(non-GET early return: nothing forwarded, nothing written), throw (reading
`charAt` of an undefined `SERVER_URL`), or open an outbound request. -/
inductive ProxyOutcome where
  | ignored
  | thrown
  | proxied (ob : OutboundRequest)
  deriving Repr, DecidableEq

/-- `handleContentRequest(req, res, authValue)` (server.js lines 38-76).
`serverUrl` is `process.env.SERVER_URL` (`none` when the variable is absent).
The method gate comes first; URL construction dereferences `SERVER_URL` and
so throws when it is undefined; `if (authValue)` sets the `Authorization`
header exactly when the credential string is truthy, i.e. non-empty; the
transport is `https` iff the constructed URL starts with `"https"`. -/
def handleContentRequest (serverUrl : Option Str) (method : String)
    (reqUrl : Str) (authValue : Str) : ProxyOutcome :=
  if method ≠ "GET" then .ignored
  else
    match serverUrl with
    | none => .thrown
    | some base =>
      let url := oceUrl base reqUrl
      .proxied
        { url := url
          authHeader := if authValue ≠ [] then some authValue else none
          secure := "https".toList.isPrefixOf url }

/-- One observable write on the inbound response object of the proxy path:
`res.writeHead(status, headers)`, one streamed body chunk, or end of
stream. -/
inductive ResWrite where
  | writeHead (status : Nat) (headers : List (String × String))
  | chunk (bytes : List Nat)
  | endOfStream
  deriving Repr, DecidableEq

/-- The upstream response delivered to the proxy callback: status code,
headers, and the body as the sequence of chunks the stream delivers. -/
structure UpstreamResponse where
  statusCode : Nat
  headers : List (String × String)
  body : List (List Nat)
  deriving Repr, DecidableEq

/-- `writeProxyContent` (server.js lines 58-64):

    res.writeHead(proxyResponse.statusCode, proxyResponse.headers);
    proxyResponse.pipe(res, { end: true });

modelled as the trace of writes it performs on `res`: the head first, then
each body chunk in order, then end of stream (`end: true`). -/
def writeProxyContent (proxyResponse : UpstreamResponse) : List ResWrite :=
  ResWrite.writeHead proxyResponse.statusCode proxyResponse.headers ::
    (proxyResponse.body.map ResWrite.chunk ++ [ResWrite.endOfStream])

/-- The body bytes a write trace carries, in order (used to state streaming
idempotence; not part of the code). -/
def bodyBytes (trace : List ResWrite) : List Nat :=
  (trace.filterMap fun w =>
    match w with
    | ResWrite.chunk bytes => some bytes
    | _ => none).flatten

/-- The full observable effect of one content request on the inbound
response: `handleContentRequest` opens the outbound request (or not), and
when it does, the transport invokes `writeProxyContent` with the upstream's
response.  `upstream` is the content server, mapping the outbound request to
its response. -/
def runContentRequest (upstream : OutboundRequest → UpstreamResponse)
    (serverUrl : Option Str) (method : String) (reqUrl : Str)
    (authValue : Str) : List ResWrite :=
  match handleContentRequest serverUrl method reqUrl authValue with
  | .proxied ob => writeProxyContent (upstream ob)
  | _ => []

/-- What the `/content/` middleware (server.js lines 93-101) does: whether
it awaited `getAuthValue()` and the proxy outcome it then produced. -/
structure DispatchTrace where
  awaitedAuth : Bool
  outcome : ProxyOutcome
  deriving Repr, DecidableEq

/-- The `/content/` middleware:

    if (isAuthNeeded()) {
      getAuthValue().then((authValue) => handleContentRequest(req, res, authValue));
    } else {
      handleContentRequest(req, res, '');
    }

`authNeeded` is `isAuthNeeded()`; `authValue` is the value `getAuthValue()`
resolves to, consumed only on the awaited branch. -/
def contentDispatch (authNeeded : Bool) (authValue : Str)
    (serverUrl : Option Str) (method : String) (reqUrl : Str) : DispatchTrace :=
  if authNeeded then
    { awaitedAuth := true
      outcome := handleContentRequest serverUrl method reqUrl authValue }
  else
    { awaitedAuth := false
      outcome := handleContentRequest serverUrl method reqUrl [] }

/-- Which registered handler Express dispatches a request to.  The static
middleware over `public/` is an out-of-scope external collaborator and is
not modelled.  `frameworkDefault` is fall-through to Express's built-in
handler (no route matched). -/
inductive HandlerKind where
  | contentProxy
  | renderPage
  | frameworkDefault
  deriving Repr, DecidableEq

/-- Whether a path matches the `server.use('/content/', ...)` mount:
Express mount matching takes every path whose first segments equal the
mount path, the mount's trailing slash optional, for every HTTP method. -/
def contentPathMatch (path : Str) : Bool :=
  "/content/".toList.isPrefixOf path || path == "/content".toList

/-- Top-level dispatch: `server.use('/content/', ...)` is registered before
`server.get('*', ...)` (server.js lines 93 and 106).  The catch-all is
registered with `server.get`, so it takes only GET requests (Express also
routes HEAD to `get` handlers); any other method on a non-content path
falls through to the framework default. -/
def dispatch (method : String) (path : Str) : HandlerKind :=
  if contentPathMatch path then .contentProxy
  else if method = "GET" || method = "HEAD" then .renderPage
  else .frameworkDefault

/-- An inbound request as the render pipeline reads it: method, URL and
parsed query parameters (`req.query`, of an opaque type `Q`). -/
structure Request (Q : Type) where
  method : String
  url : Str
  query : Q

/-- A route descriptor of the external route table `Routes`: a
react-router pattern (opaque type `P`) plus an optional data-loading
function `fetchInitialData(req)`.  Its awaited result is a value of
`Option D`, `none` modelling a promise that resolves to `undefined`. -/
structure Route (P Q D : Type) where
  pattern : P
  fetchInitialData : Option (Request Q → Option D)

/-- `Routes.find((route) => matchPath(req.url, route))` (server.js line
107): the first descriptor of the ordered table that the external
react-router `matchPath` matches against the request URL, or `none`. -/
def findActiveRoute (matchPath : Str → Route P Q D → Bool)
    (routes : List (Route P Q D)) (req : Request Q) : Option (Route P Q D) :=
  routes.find? (fun route => matchPath req.url route)

/-- `activeRoute.fetchInitialData` where
`activeRoute = Routes.find(...) || {}`: on the empty fallback descriptor
the property read yields `undefined` (`none`), and no error is raised. -/
def activeFetchInitialData (matchPath : Str → Route P Q D → Bool)
    (routes : List (Route P Q D)) (req : Request Q) :
    Option (Request Q → Option D) :=
  match findActiveRoute matchPath routes req with
  | some route => route.fetchInitialData
  | none => none

/-- The value the `.then` continuation receives, i.e. the awaited result of

    activeRoute.fetchInitialData ? activeRoute.fetchInitialData(req) : Promise.resolve()

(`Promise.resolve()` resolves to `undefined`, modelled `none`). -/
def fetchedData (matchPath : Str → Route P Q D → Bool)
    (routes : List (Route P Q D)) (req : Request Q) : Option D :=
  match activeFetchInitialData matchPath routes req with
  | some f => f req
  | none => none

/-- `const context = { data, requestQueryParams: req.query }` plus the
`notFound` property the renderer may set (initially absent, i.e. `false`). -/
structure RenderContext (Q D : Type) where
  data : Option D
  requestQueryParams : Q
  notFound : Bool

/-- The response object on the render path.  `status` starts at Express's
default 200; `body` is `none` until `res.send` writes it. -/
structure Res where
  status : Nat
  body : Option String
  deriving Repr, DecidableEq

/-- A response on which nothing has been done yet. -/
def freshRes : Res := { status := 200, body := none }

/-- `res.status(s)`. -/
def Res.setStatus (res : Res) (s : Nat) : Res := { res with status := s }

/-- `res.send(content)`. -/
def Res.send (res : Res) (content : String) : Res := { res with body := some content }

/-- The `server.get('*')` handler (server.js lines 106-128), the awaited
prefetch value inlined:

    promise.then((data) => {
      const context = { data, requestQueryParams: req.query };
      const content = renderer(req, context);
      if (context.notFound) { res.status(404); }
      res.send(content);
    });

`renderer` is the external render function; it returns the content
together with the context after its side-channel `notFound` mutation. -/
def renderHandler (matchPath : Str → Route P Q D → Bool)
    (routes : List (Route P Q D))
    (renderer : Request Q → RenderContext Q D → String × RenderContext Q D)
    (req : Request Q) (res : Res) : Res :=
  let data := fetchedData matchPath routes req
  let context : RenderContext Q D :=
    { data := data, requestQueryParams := req.query, notFound := false }
  let result := renderer req context
  let res := if (result.2).notFound then res.setStatus 404 else res
  res.send result.1

end OceServer

namespace OceServer

/-! ## C1: slash normalization of the constructed upstream URL -/

/-- A string whose last character is `/` is its `dropLast` followed by `/`. -/
theorem endsWithSlash_decomp (s : Str) (h : endsWithSlash s = true) :
    s = s.dropLast ++ ['/'] := by
  have hlast : s.getLast? = some '/' := by simpa [endsWithSlash] using h
  have hne : s ≠ [] := by
    intro hn; rw [hn] at hlast; simp at hlast
  have hd := List.dropLast_append_getLast hne
  rw [List.getLast?_eq_getLast s hne] at hlast
  simp only [Option.some.injEq] at hlast
  rw [hlast] at hd
  exact hd.symm

/-- A string whose first character is `/` is `/` followed by its tail. -/
theorem startsWithSlash_decomp (s : Str) (h : startsWithSlash s = true) :
    s = '/' :: s.tail := by
  have hhead : s.head? = some '/' := by simpa [startsWithSlash] using h
  cases s with
  | nil => simp at hhead
  | cons a t =>
    simp only [List.head?_cons, Option.some.injEq] at hhead
    simp [hhead]

/-- **C1.** For every base URL `B` (with or without a trailing slash, i.e.
at most one) and every inbound path `P` (with or without a leading slash,
i.e. at most one), the constructed upstream URL decomposes as
`B' ++ "/content/" ++ P'` where `B'` is `B` without its optional trailing
slash and `P'` is `P` without its optional leading slash: the `content`
segment is separated from each neighbour by exactly one `/` — no double
slashes and no missing slashes — in all four slash combinations. -/
theorem oceUrl_slash_normalization (B P : Str)
    (hB : endsWithSlash (stripTrailingSlash B) = false)
    (hP : startsWithSlash (stripLeadingSlash P) = false) :
    oceUrl B P = stripTrailingSlash B ++ "/content/".toList ++ stripLeadingSlash P ∧
    endsWithSlash (stripTrailingSlash B) = false ∧
    startsWithSlash (stripLeadingSlash P) = false ∧
    (B = stripTrailingSlash B ∨ B = stripTrailingSlash B ++ ['/']) ∧
    (P = stripLeadingSlash P ∨ P = '/' :: stripLeadingSlash P) := by
  refine ⟨?_, hB, hP, ?_, ?_⟩
  · unfold oceUrl stripTrailingSlash stripLeadingSlash
    by_cases hb : endsWithSlash B
    · by_cases hp : startsWithSlash P
      · simp only [hb, hp, if_true, Bool.not_true, Bool.false_eq_true, if_false]
        conv_lhs => rw [endsWithSlash_decomp B hb, startsWithSlash_decomp P hp]
        simp
      · simp only [hb, hp, if_true, Bool.not_false, Bool.false_eq_true, if_false]
        conv_lhs => rw [endsWithSlash_decomp B hb]
        simp
    · by_cases hp : startsWithSlash P
      · simp only [hb, hp, Bool.false_eq_true, if_false, Bool.not_true, if_true]
        conv_lhs => rw [startsWithSlash_decomp P hp]
        simp
      · simp only [hb, hp, Bool.false_eq_true, if_false, Bool.not_false, if_true]
        simp
  · by_cases hb : endsWithSlash B
    · right
      unfold stripTrailingSlash
      rw [if_pos hb]
      exact endsWithSlash_decomp B hb
    · left
      simp [stripTrailingSlash, hb]
  · by_cases hp : startsWithSlash P
    · right
      unfold stripLeadingSlash
      rw [if_pos hp]
      exact startsWithSlash_decomp P hp
    · left
      simp [stripLeadingSlash, hp]

/-- Witness for C1 at the spec's scenario inputs:
`SERVER_URL = "http://cms.example.com/"` (trailing slash) and
`req.url = "/assets/logo.png"` (leading slash) give exactly
`http://cms.example.com/content/assets/logo.png`. -/
theorem oceUrl_slash_normalization_witness :
    oceUrl "http://cms.example.com/".toList "/assets/logo.png".toList =
      "http://cms.example.com/content/assets/logo.png".toList ∧
    endsWithSlash (stripTrailingSlash "http://cms.example.com/".toList) = false := by
  have h := oceUrl_slash_normalization "http://cms.example.com/".toList
    "/assets/logo.png".toList (by decide) (by decide)
  refine ⟨?_, by decide⟩
  rw [h.1]
  decide

/-! ## C2: which requests reach the render pipeline -/

/-- **C2 counterexample.** A `POST` to `/about` — a path outside the
content prefix — is *not* handled by the render pipeline: the catch-all is
registered with `server.get('*')`, so the POST matches no handler and falls
through to the framework default, refuting the claim that every method on a
non-content path reaches the render pipeline. -/
theorem dispatch_post_not_renderPage :
    dispatch "POST" "/about".toList = HandlerKind.frameworkDefault ∧
    dispatch "POST" "/about".toList ≠ HandlerKind.renderPage := by
  exact ⟨by decide, by decide⟩

/-- **C2 (amended).** Every `GET` request whose path does not match the
content mount is handled by the render pipeline (Express also routes `HEAD`
to `get` handlers); a request with any other method to such a path is not
handled by the render pipeline — it falls through to the framework
default. -/
theorem dispatch_nonContent_get (method : String) (path : Str)
    (h : contentPathMatch path = false) :
    dispatch "GET" path = HandlerKind.renderPage ∧
    (method ≠ "GET" → method ≠ "HEAD" →
      dispatch method path = HandlerKind.frameworkDefault) := by
  refine ⟨by simp [dispatch, h], fun h1 h2 => ?_⟩
  simp [dispatch, h, h1, h2]

/-- Witness for the amended C2: `GET /about` is rendered, `POST /about`
falls through. -/
theorem dispatch_nonContent_get_witness :
    dispatch "GET" "/about".toList = HandlerKind.renderPage ∧
    dispatch "POST" "/about".toList = HandlerKind.frameworkDefault := by
  have h := dispatch_nonContent_get "POST" "/about".toList (by decide)
  exact ⟨h.1, h.2 (by decide) (by decide)⟩

/-! ## C3: render-path status and body -/

/-- **C3.** For every request handled by the render pipeline: if the
renderer set `notFound` on the context, the response status is 404 (set
before the body is written); otherwise the default status 200 stands; and
in both cases the body sent is exactly the renderer's returned content. -/
theorem renderHandler_status_body {P Q D : Type}
    (matchPath : Str → Route P Q D → Bool) (routes : List (Route P Q D))
    (renderer : Request Q → RenderContext Q D → String × RenderContext Q D)
    (req : Request Q) :
    (renderHandler matchPath routes renderer req freshRes).status =
      (if (renderer req
            { data := fetchedData matchPath routes req,
              requestQueryParams := req.query,
              notFound := false }).2.notFound then 404 else 200) ∧
    (renderHandler matchPath routes renderer req freshRes).body =
      some (renderer req
            { data := fetchedData matchPath routes req,
              requestQueryParams := req.query,
              notFound := false }).1 := by
  unfold renderHandler freshRes Res.setStatus Res.send
  constructor
  · split <;> simp_all
  · simp

/-! ## C4: the Authorization header -/

/-- **C4.** On every content-proxy request that opens an outbound request,
the outbound `Authorization` header equals the supplied credential if and
only if the credential is a non-empty string; when the credential is the
empty string (also passed when no credential is configured), no
`Authorization` header is set at all. -/
theorem authHeader_iff_credential (serverUrl : Option Str) (method : String)
    (reqUrl authValue : Str) (ob : OutboundRequest)
    (h : handleContentRequest serverUrl method reqUrl authValue =
      ProxyOutcome.proxied ob) :
    (∀ v, ob.authHeader = some v ↔ (authValue ≠ [] ∧ v = authValue)) ∧
    (authValue = [] → ob.authHeader = none) := by
  rcases serverUrl with _ | base
  · by_cases hm : method = "GET" <;> simp [handleContentRequest, hm] at h
  · by_cases hm : method = "GET"
    · simp only [handleContentRequest, hm, ne_eq, not_true_eq_false,
        if_false, ProxyOutcome.proxied.injEq] at h
      subst h
      by_cases ha : authValue = []
      · simp [ha]
      · constructor
        · intro v
          simp only [ha, ne_eq, not_false_eq_true, if_true, true_and,
            Option.some.injEq]
          exact ⟨fun hv => hv.symm, fun hv => hv.symm⟩
        · intro hcontra
          exact absurd hcontra ha
    · simp [handleContentRequest, hm] at h

/-- Witness for C4: credential `"token"` on a proxied GET yields exactly
`Authorization: token`. -/
theorem authHeader_iff_credential_witness :
    (OutboundRequest.mk "http://cms/content/a".toList
      (some "token".toList) false).authHeader = some "token".toList := by
  exact ((authHeader_iff_credential (some "http://cms".toList) "GET"
    "/a".toList "token".toList
    ⟨"http://cms/content/a".toList, some "token".toList, false⟩
    (by decide)).1 "token".toList).mpr ⟨by decide, rfl⟩

/-! ## C5: non-GET content requests are a silent no-op -/

/-- **C5.** A request to the content prefix whose method is not `GET` is a
silent no-op: `handleContentRequest` opens no outbound request, and running
the request against any upstream produces no response write at all. -/
theorem nonGet_silent_noop (upstream : OutboundRequest → UpstreamResponse)
    (serverUrl : Option Str) (method : String) (reqUrl authValue : Str)
    (h : method ≠ "GET") :
    handleContentRequest serverUrl method reqUrl authValue =
      ProxyOutcome.ignored ∧
    runContentRequest upstream serverUrl method reqUrl authValue = [] := by
  have h1 : handleContentRequest serverUrl method reqUrl authValue =
      ProxyOutcome.ignored := by
    simp [handleContentRequest, h]
  exact ⟨h1, by simp [runContentRequest, h1]⟩

/-- Witness for C5: a `POST` to the content prefix is dropped with no
outbound call and no response write. -/
theorem nonGet_silent_noop_witness :
    runContentRequest (fun _ => UpstreamResponse.mk 200 [] [])
      (some "http://x".toList) "POST" "/a".toList [] = [] := by
  exact (nonGet_silent_noop (fun _ => UpstreamResponse.mk 200 [] [])
    (some "http://x".toList) "POST" "/a".toList [] (by decide)).2

/-! ## C6: first-match route selection and data prefetch -/

/-- `List.find?` returns the first element satisfying the predicate: the
list splits as earlier failures, then the found element. -/
theorem find?_eq_some_first {α : Type} (p : α → Bool) (l : List α) (a : α)
    (h : l.find? p = some a) :
    p a = true ∧ ∃ pre post, l = pre ++ a :: post ∧ ∀ x ∈ pre, p x = false := by
  induction l with
  | nil => simp at h
  | cons b t ih =>
    by_cases hb : p b = true
    · rw [List.find?_cons_of_pos t hb] at h
      injection h with h
      subst h
      exact ⟨hb, [], t, rfl, by simp⟩
    · rw [List.find?_cons_of_neg t hb] at h
      obtain ⟨hp, pre, post, heq, hpre⟩ := ih h
      refine ⟨hp, b :: pre, post, by rw [heq]; rfl, ?_⟩
      intro x hx
      rcases List.mem_cons.mp hx with hxb | hxp
      · subst hxb
        simpa using hb
      · exact hpre x hxp

/-- **C6.** The descriptor used by the render pipeline is the first one in
the ordered route table that `matchPath` matches: when `findActiveRoute`
returns a route, the table splits as earlier all-non-matching routes then
that matching route; when it returns none (the empty-descriptor fallback,
no error raised), no route matches and no data-loading function is used;
the selected descriptor's data-loading function is exactly its
`fetchInitialData`; and the data handed to the renderer is the awaited
`fetchInitialData(req)` when that function is defined and `undefined`
(`none`) otherwise. -/
theorem findActiveRoute_first_match {P Q D : Type}
    (matchPath : Str → Route P Q D → Bool) (routes : List (Route P Q D))
    (req : Request Q) :
    (∀ r, findActiveRoute matchPath routes req = some r →
      matchPath req.url r = true ∧
      ∃ pre post, routes = pre ++ r :: post ∧
        ∀ r2 ∈ pre, matchPath req.url r2 = false) ∧
    (findActiveRoute matchPath routes req = none →
      (∀ r ∈ routes, matchPath req.url r = false) ∧
      activeFetchInitialData matchPath routes req = none) ∧
    (∀ r, findActiveRoute matchPath routes req = some r →
      activeFetchInitialData matchPath routes req = r.fetchInitialData) ∧
    fetchedData matchPath routes req =
      (match activeFetchInitialData matchPath routes req with
       | some f => f req
       | none => none) := by
  refine ⟨fun r h => ?_, fun h => ⟨fun r hr => ?_, ?_⟩, fun r h => ?_, rfl⟩
  · exact find?_eq_some_first _ routes r h
  · have hn := List.find?_eq_none.mp h r hr
    simpa using hn
  · simp [activeFetchInitialData, h]
  · simp [activeFetchInitialData, h]

/-! ## C7: the auth gate before the proxy -/

/-- **C7.** The `/content/` middleware awaits `getAuthValue()` exactly
when `isAuthNeeded()` reports a credential is required; when it is not
required, the proxy is invoked immediately with the empty credential and
`getAuthValue()` is never called. -/
theorem contentDispatch_auth_gate (authValue : Str) (serverUrl : Option Str)
    (method : String) (reqUrl : Str) :
    (∀ authNeeded,
      (contentDispatch authNeeded authValue serverUrl method reqUrl).awaitedAuth
        = authNeeded) ∧
    (contentDispatch false authValue serverUrl method reqUrl).outcome =
      handleContentRequest serverUrl method reqUrl [] ∧
    (contentDispatch true authValue serverUrl method reqUrl).outcome =
      handleContentRequest serverUrl method reqUrl authValue := by
  refine ⟨fun authNeeded => ?_, rfl, rfl⟩
  cases authNeeded <;> rfl

/-! ## C8: verbatim pass-through of upstream status, headers and body -/

/-- Body bytes of a trace beginning with a chunk. -/
theorem bodyBytes_cons_chunk (c : List Nat) (l : List ResWrite) :
    bodyBytes (ResWrite.chunk c :: l) = c ++ bodyBytes l := by
  simp [bodyBytes, List.filterMap_cons]

/-- Body bytes of a trace beginning with a head write. -/
theorem bodyBytes_cons_writeHead (s : Nat) (hs : List (String × String))
    (l : List ResWrite) :
    bodyBytes (ResWrite.writeHead s hs :: l) = bodyBytes l := by
  simp [bodyBytes, List.filterMap_cons]

/-- Body bytes of a trace beginning with end-of-stream. -/
theorem bodyBytes_cons_endOfStream (l : List ResWrite) :
    bodyBytes (ResWrite.endOfStream :: l) = bodyBytes l := by
  simp [bodyBytes, List.filterMap_cons]

/-- Body bytes of streamed chunks followed by a remainder. -/
theorem bodyBytes_map_chunk (chunks : List (List Nat)) (rest : List ResWrite) :
    bodyBytes (chunks.map ResWrite.chunk ++ rest) =
      chunks.flatten ++ bodyBytes rest := by
  induction chunks with
  | nil => simp
  | cons c cs ih => simp [bodyBytes_cons_chunk, ih]

/-- **C8.** For every upstream response, the proxy's first write on the
inbound response is `writeHead` with the upstream status code and all
upstream headers, verbatim and before any body bytes; every head write in
the trace carries exactly the upstream status and headers (none added,
removed or altered); and the body bytes written equal exactly the bytes of
the upstream body, chunk for chunk. -/
theorem writeProxyContent_verbatim (u : UpstreamResponse) :
    writeProxyContent u =
      ResWrite.writeHead u.statusCode u.headers ::
        (u.body.map ResWrite.chunk ++ [ResWrite.endOfStream]) ∧
    (writeProxyContent u).head? =
      some (ResWrite.writeHead u.statusCode u.headers) ∧
    (∀ s hs, ResWrite.writeHead s hs ∈ writeProxyContent u →
      s = u.statusCode ∧ hs = u.headers) ∧
    bodyBytes (writeProxyContent u) = u.body.flatten := by
  refine ⟨rfl, rfl, ?_, ?_⟩
  · intro s hs hmem
    simp only [writeProxyContent, List.mem_cons, List.mem_append,
      List.mem_map, List.mem_singleton] at hmem
    rcases hmem with h | ⟨x, _, hx⟩ | h
    · exact ⟨(ResWrite.writeHead.injEq _ _ _ _).mp h.symm |>.1.symm,
        ((ResWrite.writeHead.injEq _ _ _ _).mp h.symm).2.symm⟩
    · exact absurd hx (by simp)
    · exact absurd h (by simp)
  · rw [show writeProxyContent u =
      ResWrite.writeHead u.statusCode u.headers ::
        (u.body.map ResWrite.chunk ++ [ResWrite.endOfStream]) from rfl,
      bodyBytes_cons_writeHead, bodyBytes_map_chunk,
      bodyBytes_cons_endOfStream]
    simp [bodyBytes]

/-! ## C9: credential acquired before the method gate -/

/-- **C9.** When a credential is required, the middleware awaits
`getAuthValue()` for every request under the content prefix regardless of
its method: a non-GET request still triggers credential acquisition and is
only afterwards dropped without forwarding or response, because the method
gate runs inside `handleContentRequest`, after the await. -/
theorem auth_awaited_before_method_gate (authValue : Str)
    (serverUrl : Option Str) (method : String) (reqUrl : Str)
    (h : method ≠ "GET") :
    (contentDispatch true authValue serverUrl method reqUrl).awaitedAuth
      = true ∧
    (contentDispatch true authValue serverUrl method reqUrl).outcome =
      ProxyOutcome.ignored := by
  exact ⟨rfl, by simp [contentDispatch, handleContentRequest, h]⟩

/-- Witness for C9: a `DELETE` under the content prefix still awaits the
credential and is then dropped. -/
theorem auth_awaited_before_method_gate_witness :
    (contentDispatch true "token".toList (some "http://x".toList) "DELETE"
      "/a".toList).awaitedAuth = true ∧
    (contentDispatch true "token".toList (some "http://x".toList) "DELETE"
      "/a".toList).outcome = ProxyOutcome.ignored := by
  exact auth_awaited_before_method_gate "token".toList
    (some "http://x".toList) "DELETE" "/a".toList (by decide)

/-! ## C10: undefined SERVER_URL makes GET proxying throw -/

/-- **C10.** With the `SERVER_URL` configuration absent, every GET request
under the content prefix makes the handler throw during URL construction
(reading `charAt` of `undefined`): no outbound request is opened and, for
any upstream, nothing is written to the response. -/
theorem missing_serverUrl_throws (reqUrl authValue : Str)
    (upstream : OutboundRequest → UpstreamResponse) :
    handleContentRequest none "GET" reqUrl authValue = ProxyOutcome.thrown ∧
    runContentRequest upstream none "GET" reqUrl authValue = [] := by
  constructor
  · simp [handleContentRequest]
  · simp [runContentRequest, handleContentRequest]

end OceServer
